import Mathlib

/-!
Shallow embedding of `soap/DefaultEncoder.go`: a SOAP 1.1 envelope encoder
that reflects over the field metadata of a record, accumulates encoded root
elements in a byte buffer, and on `Flush` wraps the buffer in envelope
boilerplate and writes it to an external sink in one call.

Modelling choices:
* Go byte slices are modelled as `String` (the code only ever appends
  UTF-8 text to the buffer).
* The external `io.Writer` sink is modelled by a log (`sinkLog`) of the
  byte sequences passed to `Write`, plus a Boolean parameter on `Flush`
  saying whether that single `Write` call reports an error.
* A reflected Go value is `GoValue`: an integer kind, a string kind, or
  any other kind, the latter carrying its `fmt.Sprintf "%v"` rendering
  and its `reflect.Value.IsZero` answer as data.
* The Go `error` results are `Option String` (`none` = nil error).
* `strings.Split` with a one-character separator is `splitChar`;
  `strings.Contains` is `strContains`.
-/

/-- The opening part of a SOAP envelope (Go constant `SOAPEnvelopeStart`). -/
def SOAPEnvelopeStart : String :=
"<?xml version=\"1.0\" encoding=\"utf-8\"?>\n<soap:Envelope xmlns:soap=\"http://schemas.xmlsoap.org/soap/envelope/\">\n  <soap:Body>\n"

/-- The closing part of a SOAP envelope (Go constant `SOAPEnvelopeEnd`). -/
def SOAPEnvelopeEnd : String :=
"  </soap:Body>\n</soap:Envelope>"

/-- A reflected Go field value, as `DefaultEncoder.Encode` inspects it:
an integer kind (`field.Int()`), a string kind (`field.String()`), or any
other kind. For the fallback kind we carry the string that
`fmt.Sprintf "%v"` would produce and the Boolean that
`reflect.Value.IsZero` would return, since those are the only two
observations the encoder makes of such a value. -/
inductive GoValue where
  | intV (i : Int)
  | strV (s : String)
  | otherV (rendered : String) (zero : Bool)
deriving DecidableEq, Repr

/-- `reflect.Value.IsZero` as the encoder uses it: 0 for integers, the
empty string for strings, and the carried answer for other kinds. -/
def goIsZero : GoValue → Bool
  | .intV i => i == 0
  | .strV s => s == ""
  | .otherV _ z => z

/-- The switch on `field.Kind()` in `DefaultEncoder.Encode`: integers via
`fmt.Sprintf "%d"` (base-10), strings verbatim via `field.String()`, and
anything else via the generic `fmt.Sprintf "%v"` fallback. -/
def formatValue : GoValue → String
  | .intV i => toString i
  | .strV s => s
  | .otherV r _ => r

/-- One reflected struct field: its Go field name (`StructField.Name`),
its xml tag string (`StructField.Tag.Get "xml"`), and its value. -/
structure GoField where
  name : String
  tag : String
  value : GoValue
deriving DecidableEq, Repr

/-- A reflected Go struct: its ordered list of fields. -/
structure GoStruct where
  fields : List GoField
deriving DecidableEq, Repr

/-- `strings.Split` on a one-character separator, over a char list:
splits around every occurrence of `sep`; the empty input yields `[[]]`. -/
def splitCharList (sep : Char) : List Char → List (List Char)
  | [] => [[]]
  | c :: cs =>
    let r := splitCharList sep cs
    if c == sep then [] :: r
    else
      match r with
      | [] => [[c]]
      | h :: t => (c :: h) :: t

/-- `strings.Split s (String.singleton sep)`: always returns at least one
part; splitting "a,b" on the comma gives ["a", "b"]. -/
def splitChar (sep : Char) (s : String) : List String :=
  (splitCharList sep s.data).map (fun l => String.mk l)

/-- Whether `pat` is an initial segment of `l`. -/
def charsStartWith : List Char → List Char → Bool
  | [], _ => true
  | _ :: _, [] => false
  | a :: as, b :: bs => a == b && charsStartWith as bs

/-- Whether `pat` occurs contiguously somewhere in `l`. -/
def charsContain (pat : List Char) : List Char → Bool
  | [] => charsStartWith pat []
  | c :: rest => charsStartWith pat (c :: rest) || charsContain pat rest

/-- `strings.Contains s sub`. -/
def strContains (s sub : String) : Bool :=
  charsContain sub.data s.data

/-- The body of the match in Go function `getXMLNameAndNamespace`: split
the xml tag of the found `XMLName` field on a single space; with exactly
two parts return (local name, namespace) = (parts[1], parts[0]); with any
other number of parts fall back to (the Go name of the field, ""). -/
def xmlNameOfField (f : GoField) : String × String :=
  match splitChar ' ' f.tag with
  | [ns, nm] => (nm, ns)
  | _ => (f.name, "")

/-- The loop of `getXMLNameAndNamespace` over the fields of the struct:
the first field named `XMLName` decides the result via `xmlNameOfField`;
with no such field the result is `("", "")`. -/
def getXMLNameAndNamespace (fields : List GoField) : String × String :=
  match fields.find? (fun f => f.name = "XMLName") with
  | some f => xmlNameOfField f
  | none => ("", "")

/-- The body of the field loop in `DefaultEncoder.Encode`, acting on the
buffer `b`: skip the `XMLName` field; take the element name from the first
comma-separated tag segment; skip the field when its value is zero and the
tag contains `omitempty`; otherwise append
`"\n      <name xmlns=\"\">value</name>"`. -/
def encodeFieldStep (b : String) (f : GoField) : String :=
  if f.name = "XMLName" then b
  else
    let parts := splitChar ',' f.tag
    let fieldName := parts.headD ""
    if goIsZero f.value && strContains f.tag "omitempty" then b
    else
      b ++ "\n      <" ++ fieldName ++ " xmlns=\"\">" ++ formatValue f.value
        ++ "</" ++ fieldName ++ ">"

/-- The encoder state: the internal byte buffer, and the sink modelled as
the log of byte sequences handed to the single `Write` call of the writer. -/
structure DefaultEncoder where
  buffer : String
  sinkLog : List String
deriving DecidableEq, Repr

/-- Go function `NewEncoder`: empty buffer, no I/O performed. -/
def NewEncoder : DefaultEncoder :=
  { buffer := "", sinkLog := [] }

/-- Go method `DefaultEncoder.Encode`: extract the root name and
namespace; fail with the `MissingRootName` error when the name is empty
(buffer untouched); otherwise lazily append the envelope opening text when
the buffer is empty, append the root opening tag, run the field loop, and
append the root closing tag. -/
def DefaultEncoder.Encode (e : DefaultEncoder) (v : GoStruct) :
    Option String × DefaultEncoder :=
  let p := getXMLNameAndNamespace v.fields
  if p.1 = "" then (some "struct must have XMLName field", e)
  else
    let buf0 := if e.buffer.length = 0 then e.buffer ++ SOAPEnvelopeStart else e.buffer
    let buf1 := buf0 ++ "    <" ++ p.1 ++ " xmlns=\"" ++ p.2 ++ "\">"
    let buf2 := v.fields.foldl encodeFieldStep buf1
    let buf3 := buf2 ++ "\n    </" ++ p.1 ++ ">"
    (none, { e with buffer := buf3 })

/-- Go method `DefaultEncoder.Flush`: when the buffer is non-empty, append
a newline plus the envelope closing text, hand the whole buffer to the
`Write` call of the sink, and — only when that call succeeds — clear the
buffer; a write error is returned with the buffer left as passed to the
sink. An empty buffer is a no-op. `writeFails` is the response of the sink to
this one `Write` call. -/
def DefaultEncoder.Flush (e : DefaultEncoder) (writeFails : Bool) :
    Option String × DefaultEncoder :=
  if 0 < e.buffer.length then
    let buf := e.buffer ++ "\n" ++ SOAPEnvelopeEnd
    let e1 : DefaultEncoder := { buffer := buf, sinkLog := e.sinkLog ++ [buf] }
    if writeFails then (some "sink write failed", e1)
    else (none, { buffer := "", sinkLog := e1.sinkLog })
  else (none, e)

/-- The Go `reflect` API panics (rather than returning an error) when field
enumeration is attempted on a non-struct value. To state that, the
entry point of the encoder is wrapped over the full space of inputs: a struct,
a pointer (to anything), an integer, or a string. `Encode` dereferences a
pointer exactly once and then enumerates fields, so any input that is not
a struct after at most one dereference panics, modelled as `none`. -/
inductive GoInput where
  | structV (s : GoStruct)
  | ptrV (p : GoInput)
  | intInput (i : Int)
  | strInput (s : String)
deriving Repr

/-- The single `val = val.Elem()` dereference at the top of `Encode`. -/
def derefOnce : GoInput → GoInput
  | .ptrV p => p
  | v => v

/-- `DefaultEncoder.Encode` over arbitrary inputs: `none` models the
`reflect` panic raised by `NumField` on a non-struct value, `some`
carries the normal (error, state) result of the method. -/
def DefaultEncoder.EncodeAny (e : DefaultEncoder) (v : GoInput) :
    Option (Option String × DefaultEncoder) :=
  match derefOnce v with
  | .structV s => some (e.Encode s)
  | _ => none

/-- What the field loop appends to the buffer for one field, taken out of
`encodeFieldStep` for stating theorems: the empty string for a skipped
field, the rendered element otherwise. -/
def fieldEmit (f : GoField) : String :=
  if f.name = "XMLName" then ""
  else if goIsZero f.value && strContains f.tag "omitempty" then ""
  else
    "\n      <" ++ (splitChar ',' f.tag).headD "" ++ " xmlns=\"\">"
      ++ formatValue f.value ++ "</" ++ (splitChar ',' f.tag).headD "" ++ ">"

/-- Concatenation of a list of strings, for stating buffer contents. -/
def concatAll : List String → String
  | [] => ""
  | s :: rest => s ++ concatAll rest

/-- The root block one successful `Encode` appends after the (possibly
lazily added) envelope opening: root opening tag with the extracted
namespace, the field elements in declared order, root closing tag. -/
def rootBlock (nm ns : String) (fields : List GoField) : String :=
  "    <" ++ nm ++ " xmlns=\"" ++ ns ++ "\">" ++ concatAll (fields.map fieldEmit)
    ++ "\n    </" ++ nm ++ ">"

example : splitChar ' ' "urn:example Person" = ["urn:example", "Person"] := by decide

example : splitChar ' ' "noSpace" = ["noSpace"] := by decide

example : strContains "Age,omitempty" "omitempty" = true := by decide

example : strContains "Age" "omitempty" = false := by decide

example :
    getXMLNameAndNamespace [⟨"XMLName", "urn:example Person", .otherV "" true⟩]
      = ("Person", "urn:example") := by decide

example :
    getXMLNameAndNamespace [⟨"XMLName", "badtag", .otherV "" true⟩]
      = ("XMLName", "") := by decide

example :
    getXMLNameAndNamespace [⟨"Name", "Name", .strV "x"⟩] = ("", "") := by decide

theorem length_pos_of_ne_empty (s : String) (h : s ≠ "") : 0 < s.length := by
  cases s with
  | mk d =>
    cases d with
    | nil => exact absurd rfl h
    | cons c cs => simp [String.length]

theorem length_eq_zero_iff_empty (s : String) : s.length = 0 ↔ s = "" := by
  constructor
  · intro h
    by_contra hne
    have := length_pos_of_ne_empty s hne
    omega
  · intro h
    subst h
    rfl

theorem append_ne_empty_left (s t : String) (h : s ≠ "") : s ++ t ≠ "" := by
  intro hc
  have h0 : (s ++ t).length = 0 := (length_eq_zero_iff_empty _).2 hc
  rw [String.length_append] at h0
  have := length_pos_of_ne_empty s h
  omega

theorem getXMLNameAndNamespace_some (fields : List GoField) (f : GoField)
    (hf : fields.find? (fun g => g.name = "XMLName") = some f) :
    getXMLNameAndNamespace fields = xmlNameOfField f := by
  unfold getXMLNameAndNamespace
  rw [hf]

theorem encodeFieldStep_eq (b : String) (f : GoField) :
    encodeFieldStep b f = b ++ fieldEmit f := by
  by_cases h1 : f.name = "XMLName"
  · simp [encodeFieldStep, fieldEmit, h1]
  · by_cases h2 : (goIsZero f.value && strContains f.tag "omitempty") = true
    · simp [encodeFieldStep, fieldEmit, h1, h2]
    · simp [encodeFieldStep, fieldEmit, h1, h2, String.append_assoc]

theorem foldl_encodeFieldStep (fs : List GoField) (b : String) :
    fs.foldl encodeFieldStep b = b ++ concatAll (fs.map fieldEmit) := by
  induction fs generalizing b with
  | nil => simp [concatAll]
  | cons f rest ih =>
    simp only [List.foldl_cons, List.map_cons, concatAll, encodeFieldStep_eq, ih,
      String.append_assoc]

theorem Encode_success (e : DefaultEncoder) (v : GoStruct) (nm ns : String)
    (h : getXMLNameAndNamespace v.fields = (nm, ns)) (hne : nm ≠ "") :
    e.Encode v = (none,
      { e with buffer :=
          (if e.buffer.length = 0 then e.buffer ++ SOAPEnvelopeStart else e.buffer)
            ++ rootBlock nm ns v.fields }) := by
  unfold DefaultEncoder.Encode
  rw [h]
  simp [hne, rootBlock, foldl_encodeFieldStep, String.append_assoc]

theorem Encode_missingRoot (e : DefaultEncoder) (v : GoStruct)
    (h : (getXMLNameAndNamespace v.fields).1 = "") :
    e.Encode v = (some "struct must have XMLName field", e) := by
  unfold DefaultEncoder.Encode
  simp [h]

theorem Flush_empty (e : DefaultEncoder) (w : Bool) (h : e.buffer = "") :
    e.Flush w = (none, e) := by
  unfold DefaultEncoder.Flush
  simp [h]

theorem Flush_ok (e : DefaultEncoder) (h : e.buffer ≠ "") :
    e.Flush false = (none,
      { buffer := "",
        sinkLog := e.sinkLog ++ [e.buffer ++ "\n" ++ SOAPEnvelopeEnd] }) := by
  have hp : 0 < e.buffer.length := length_pos_of_ne_empty _ h
  unfold DefaultEncoder.Flush
  simp [hp]

theorem Flush_fail (e : DefaultEncoder) (h : e.buffer ≠ "") :
    e.Flush true = (some "sink write failed",
      { buffer := e.buffer ++ "\n" ++ SOAPEnvelopeEnd,
        sinkLog := e.sinkLog ++ [e.buffer ++ "\n" ++ SOAPEnvelopeEnd] }) := by
  have hp : 0 < e.buffer.length := length_pos_of_ne_empty _ h
  unfold DefaultEncoder.Flush
  simp [hp]

/-- A well-formed record: root name `Person`, namespace `urn:example`,
a string field and an integer field. -/
def person : GoStruct :=
  ⟨[⟨"XMLName", "urn:example Person", .otherV "" true⟩,
    ⟨"Name", "Name", .strV "Alice"⟩,
    ⟨"Age", "Age", .intV 30⟩]⟩

/-- A record whose `XMLName` field is present but whose tag does not split
on a space into two parts. -/
def badTagRecord : GoStruct :=
  ⟨[⟨"XMLName", "badtag", .otherV "" true⟩]⟩

/-- A record with no `XMLName` field at all. -/
def noNameRecord : GoStruct :=
  ⟨[⟨"Name", "Name", .strV "x"⟩]⟩

set_option maxRecDepth 40000 in
/-- Claim C1, counterexample: encode a valid record, then flush against a
failing sink. The write error is propagated, but the buffer is NOT left
cleared — it still holds the pending XML — refuting the claim that the
buffer is empty regardless. -/
theorem C1_counterexample :
    ((NewEncoder.Encode person).2.Flush true).1 = some "sink write failed" ∧
    ((NewEncoder.Encode person).2.Flush true).2.buffer ≠ "" := by
  decide

/-- Claim C1 (amended): if the sink write inside `Flush` fails, the error
is propagated to the caller, and the buffer is NOT cleared: it retains the
pending XML with the envelope closing text appended, so the pending XML is
kept, not discarded. -/
theorem C1_flush_write_failure (e : DefaultEncoder) (h : e.buffer ≠ "") :
    e.Flush true = (some "sink write failed",
      { buffer := e.buffer ++ "\n" ++ SOAPEnvelopeEnd,
        sinkLog := e.sinkLog ++ [e.buffer ++ "\n" ++ SOAPEnvelopeEnd] }) :=
  Flush_fail e h

/-- Claim C1, witness: the amended statement at a concrete one-byte buffer. -/
theorem C1_witness :
    (DefaultEncoder.mk "x" []).Flush true
      = (some "sink write failed",
         { buffer := "x" ++ "\n" ++ SOAPEnvelopeEnd,
           sinkLog := ["x" ++ "\n" ++ SOAPEnvelopeEnd] }) :=
  C1_flush_write_failure (DefaultEncoder.mk "x" []) (by decide)

set_option maxRecDepth 40000 in
/-- Claim C2, counterexample: a record whose `XMLName` field is present
but malformed (tag `badtag` has one space-separated part, not two) is NOT
rejected: `Encode` returns no error and mutates the buffer, refuting the
claim that it fails with `MissingRootName` leaving the buffer unchanged. -/
theorem C2_counterexample :
    (NewEncoder.Encode badTagRecord).1 = none ∧
    (NewEncoder.Encode badTagRecord).2.buffer ≠ NewEncoder.buffer := by
  decide

/-- Claim C2 (amended): when the `XMLName` field is present but its tag
does not split on a single space into exactly two parts, `Encode` does not
fail — the extraction falls back to the literal Go field name `XMLName`
with an empty namespace and the record is encoded normally. -/
theorem C2_malformed_xmlname_falls_back (e : DefaultEncoder) (v : GoStruct)
    (f : GoField)
    (hf : v.fields.find? (fun g => g.name = "XMLName") = some f)
    (hlen : (splitChar ' ' f.tag).length ≠ 2) :
    getXMLNameAndNamespace v.fields = ("XMLName", "") ∧
    (e.Encode v).1 = none := by
  have hname : f.name = "XMLName" := by
    have hp := List.find?_some hf
    simpa using hp
  have hg : getXMLNameAndNamespace v.fields = ("XMLName", "") := by
    rw [getXMLNameAndNamespace_some v.fields f hf]
    unfold xmlNameOfField
    rcases hs : splitChar ' ' f.tag with _ | ⟨a, _ | ⟨b, _ | ⟨c, rest⟩⟩⟩
    · simp [hname]
    · simp [hname]
    · exact absurd (by rw [hs]; rfl) hlen
    · simp [hname]
  refine ⟨hg, ?_⟩
  unfold DefaultEncoder.Encode
  rw [hg]
  simp

/-- Claim C2, witness: the amended statement at the concrete malformed
record. -/
theorem C2_witness :
    getXMLNameAndNamespace badTagRecord.fields = ("XMLName", "") ∧
    (NewEncoder.Encode badTagRecord).1 = none :=
  C2_malformed_xmlname_falls_back NewEncoder badTagRecord
    ⟨"XMLName", "badtag", .otherV "" true⟩ (by decide) (by decide)

/-- Claim C3: a record with no `XMLName` metadata field at all is rejected
with the `MissingRootName` error and the encoder state — in particular the
buffer — is identical before and after the call: the rejection precedes
any buffer mutation, so the encoder remains reusable. -/
theorem C3_missing_xmlname_rejected (e : DefaultEncoder) (v : GoStruct)
    (h : v.fields.find? (fun g => g.name = "XMLName") = none) :
    e.Encode v = (some "struct must have XMLName field", e) := by
  unfold DefaultEncoder.Encode getXMLNameAndNamespace
  rw [h]
  simp

/-- Claim C3, witness: the statement at a concrete record lacking
`XMLName`, starting from the fresh encoder. -/
theorem C3_witness :
    NewEncoder.Encode noNameRecord
      = (some "struct must have XMLName field", NewEncoder) :=
  C3_missing_xmlname_rejected NewEncoder noNameRecord (by decide)

/-- Claim C4: for every valid record with extracted root name `nm` and
namespace `ns`, `Encode` then `Flush` (with a healthy sink) succeeds,
writes to the sink exactly one root block `<nm xmlns="ns">...</nm>`
wrapped in the fixed envelope boilerplate, in one single write, and leaves
the buffer empty. -/
theorem C4_encode_flush_single_root (v : GoStruct) (nm ns : String)
    (h : getXMLNameAndNamespace v.fields = (nm, ns)) (hne : nm ≠ "") :
    (NewEncoder.Encode v).1 = none ∧
    ((NewEncoder.Encode v).2).Flush false =
      (none, { buffer := "",
               sinkLog := [SOAPEnvelopeStart ++ rootBlock nm ns v.fields
                             ++ "\n" ++ SOAPEnvelopeEnd] }) := by
  have he := Encode_success NewEncoder v nm ns h hne
  have hbuf : (NewEncoder.Encode v).2.buffer
      = SOAPEnvelopeStart ++ rootBlock nm ns v.fields := by
    rw [he]
    simp [NewEncoder]
  have hlog : (NewEncoder.Encode v).2.sinkLog = [] := by
    rw [he]
    rfl
  refine ⟨by rw [he], ?_⟩
  have hne2 : (NewEncoder.Encode v).2.buffer ≠ "" := by
    rw [hbuf]
    exact append_ne_empty_left _ _ (by decide)
  rw [Flush_ok _ hne2, hbuf, hlog]
  simp [String.append_assoc]

/-- Claim C4, witness: the statement at the concrete `person` record. -/
theorem C4_witness :
    (NewEncoder.Encode person).1 = none ∧
    ((NewEncoder.Encode person).2).Flush false =
      (none, { buffer := "",
               sinkLog := [SOAPEnvelopeStart
                             ++ rootBlock "Person" "urn:example" person.fields
                             ++ "\n" ++ SOAPEnvelopeEnd] }) :=
  C4_encode_flush_single_root person "Person" "urn:example" (by decide) (by decide)

/-- Claim C5: for `Encode A; Encode B; Flush` on a fresh encoder with two
valid records, the envelope opening text is appended exactly once (lazily,
by the first `Encode`, since the second sees a non-empty buffer), the
resulting single envelope holds the root element of A followed by the root
element of B in call order, and the whole buffer goes to the sink in one
write. -/
theorem C5_two_encodes_one_flush (a b : GoStruct) (na ua nb ub : String)
    (ha : getXMLNameAndNamespace a.fields = (na, ua)) (hna : na ≠ "")
    (hb : getXMLNameAndNamespace b.fields = (nb, ub)) (hnb : nb ≠ "") :
    (NewEncoder.Encode a).1 = none ∧
    (((NewEncoder.Encode a).2).Encode b).1 = none ∧
    (((NewEncoder.Encode a).2).Encode b).2.buffer
        = SOAPEnvelopeStart ++ rootBlock na ua a.fields
            ++ rootBlock nb ub b.fields ∧
    ((((NewEncoder.Encode a).2).Encode b).2).Flush false =
      (none, { buffer := "",
               sinkLog := [SOAPEnvelopeStart ++ rootBlock na ua a.fields
                             ++ rootBlock nb ub b.fields
                             ++ "\n" ++ SOAPEnvelopeEnd] }) := by
  have hea := Encode_success NewEncoder a na ua ha hna
  have hbuf1 : (NewEncoder.Encode a).2.buffer
      = SOAPEnvelopeStart ++ rootBlock na ua a.fields := by
    rw [hea]
    simp [NewEncoder]
  have hlog1 : (NewEncoder.Encode a).2.sinkLog = [] := by
    rw [hea]
    rfl
  have hne1 : (NewEncoder.Encode a).2.buffer ≠ "" := by
    rw [hbuf1]
    exact append_ne_empty_left _ _ (by decide)
  have hlen1 : ¬((NewEncoder.Encode a).2.buffer.length = 0) := fun h0 =>
    hne1 ((length_eq_zero_iff_empty _).1 h0)
  have heb := Encode_success ((NewEncoder.Encode a).2) b nb ub hb hnb
  rw [if_neg hlen1] at heb
  have hbuf2 : (((NewEncoder.Encode a).2).Encode b).2.buffer
      = SOAPEnvelopeStart ++ rootBlock na ua a.fields
          ++ rootBlock nb ub b.fields := by
    rw [heb]
    simp [hbuf1, String.append_assoc]
  have hlog2 : (((NewEncoder.Encode a).2).Encode b).2.sinkLog = [] := by
    rw [heb]
    simp [hlog1]
  have hne2 : (((NewEncoder.Encode a).2).Encode b).2.buffer ≠ "" := by
    rw [hbuf2]
    exact append_ne_empty_left _ _ (append_ne_empty_left _ _ (by decide))
  refine ⟨by rw [hea], by rw [heb], hbuf2, ?_⟩
  rw [Flush_ok _ hne2, hbuf2, hlog2]
  simp [String.append_assoc]

/-- A second well-formed record, used as the B record of the C5 witness. -/
def tempRecord : GoStruct :=
  ⟨[⟨"XMLName", "urn:weather GetTemp", .otherV "" true⟩,
    ⟨"City", "City", .strV "Oslo"⟩]⟩

/-- Claim C5, witness: the statement at the concrete records `person`
and `tempRecord`. -/
theorem C5_witness :
    (NewEncoder.Encode person).1 = none ∧
    (((NewEncoder.Encode person).2).Encode tempRecord).1 = none ∧
    (((NewEncoder.Encode person).2).Encode tempRecord).2.buffer
        = SOAPEnvelopeStart ++ rootBlock "Person" "urn:example" person.fields
            ++ rootBlock "GetTemp" "urn:weather" tempRecord.fields ∧
    ((((NewEncoder.Encode person).2).Encode tempRecord).2).Flush false =
      (none, { buffer := "",
               sinkLog := [SOAPEnvelopeStart
                             ++ rootBlock "Person" "urn:example" person.fields
                             ++ rootBlock "GetTemp" "urn:weather" tempRecord.fields
                             ++ "\n" ++ SOAPEnvelopeEnd] }) :=
  C5_two_encodes_one_flush person tempRecord "Person" "urn:example"
    "GetTemp" "urn:weather" (by decide) (by decide) (by decide) (by decide)

/-- Claim C6: for a field other than `XMLName` whose metadata string
contains the `omitempty` modifier, the field loop appends nothing to the
buffer when the value is the zero value for its kind, and always appends
the element when the value is non-zero. -/
theorem C6_omitempty_zero_skipped (b : String) (f : GoField)
    (hmod : strContains f.tag "omitempty" = true) (hx : f.name ≠ "XMLName") :
    (goIsZero f.value = true → encodeFieldStep b f = b) ∧
    (goIsZero f.value = false →
      encodeFieldStep b f
        = b ++ "\n      <" ++ (splitChar ',' f.tag).headD "" ++ " xmlns=\"\">"
            ++ formatValue f.value ++ "</" ++ (splitChar ',' f.tag).headD ""
            ++ ">") := by
  constructor <;> intro hz <;> simp [encodeFieldStep, hx, hz, hmod]

/-- Claim C6, witness: a zero `omitempty` integer field appends nothing
to a concrete buffer. -/
theorem C6_witness :
    encodeFieldStep "B" ⟨"Age", "Age,omitempty", .intV 0⟩ = "B" :=
  (C6_omitempty_zero_skipped "B" ⟨"Age", "Age,omitempty", .intV 0⟩
    (by decide) (by decide)).1 (by decide)

/-- Claim C7: for every valid record, the buffer after `Encode` is the
(lazily started) previous buffer, the root opening tag, then one entry per
declared field in declared order (`XMLName` and skipped fields contribute
the empty string), then the root closing tag; every emitted entry has the
shape `"\n      <name xmlns=\"\">value</name>"` with the name taken from
the first comma-separated tag segment, integers rendered base-10, strings
verbatim, and other kinds by the generic stringification fallback. -/
theorem C7_field_order_and_format (e : DefaultEncoder) (v : GoStruct)
    (nm ns : String)
    (h : getXMLNameAndNamespace v.fields = (nm, ns)) (hne : nm ≠ "") :
    (e.Encode v).2.buffer
      = (if e.buffer.length = 0 then e.buffer ++ SOAPEnvelopeStart else e.buffer)
          ++ "    <" ++ nm ++ " xmlns=\"" ++ ns ++ "\">"
          ++ concatAll (v.fields.map fieldEmit)
          ++ "\n    </" ++ nm ++ ">" ∧
    (∀ g : GoField, g.name ≠ "XMLName" →
      (goIsZero g.value && strContains g.tag "omitempty") = false →
      fieldEmit g
        = "\n      <" ++ (splitChar ',' g.tag).headD "" ++ " xmlns=\"\">"
            ++ formatValue g.value ++ "</" ++ (splitChar ',' g.tag).headD ""
            ++ ">") ∧
    (∀ i : Int, formatValue (.intV i) = toString i) ∧
    (∀ s : String, formatValue (.strV s) = s) ∧
    (∀ r : String, ∀ z : Bool, formatValue (.otherV r z) = r) := by
  refine ⟨?_, ?_, fun i => rfl, fun s => rfl, fun r z => rfl⟩
  · rw [Encode_success e v nm ns h hne]
    simp [rootBlock, String.append_assoc]
  · intro g hg1 hg2
    simp [fieldEmit, hg1, hg2, String.append_assoc]

/-- Claim C7, witness: the buffer-shape clause at the concrete `person`
record on the fresh encoder. -/
theorem C7_witness :
    (NewEncoder.Encode person).2.buffer
      = (if NewEncoder.buffer.length = 0
           then NewEncoder.buffer ++ SOAPEnvelopeStart else NewEncoder.buffer)
          ++ "    <" ++ "Person" ++ " xmlns=\"" ++ "urn:example" ++ "\">"
          ++ concatAll (person.fields.map fieldEmit)
          ++ "\n    </" ++ "Person" ++ ">" :=
  (C7_field_order_and_format NewEncoder person "Person" "urn:example"
    (by decide) (by decide)).1

/-- Claim C8: `Flush` on an empty buffer — fresh encoder or right after a
previous `Flush` — succeeds, performs no sink write, appends no envelope
text (the whole state is unchanged), and repeating it stays a no-op. -/
theorem C8_flush_empty_noop (e : DefaultEncoder) (w w2 : Bool)
    (h : e.buffer = "") :
    e.Flush w = (none, e) ∧ ((e.Flush w).2).Flush w2 = (none, e) := by
  have h1 := Flush_empty e w h
  refine ⟨h1, ?_⟩
  rw [h1]
  exact Flush_empty e w2 h

/-- Claim C8, witness: the statement on the freshly constructed encoder. -/
theorem C8_witness :
    NewEncoder.Flush false = (none, NewEncoder) ∧
    ((NewEncoder.Flush false).2).Flush true = (none, NewEncoder) :=
  C8_flush_empty_noop NewEncoder false true rfl

/-- Claim C9: when the sink write of a `Flush` fails, the envelope closing
text has already been appended to the retained buffer, so a subsequent
successful `Flush` appends it a second time and hands the sink a byte
sequence ending in the closing boilerplate twice. -/
theorem C9_failed_flush_duplicates_closing (e : DefaultEncoder)
    (h : e.buffer ≠ "") :
    (e.Flush true).1 = some "sink write failed" ∧
    (e.Flush true).2.buffer = e.buffer ++ "\n" ++ SOAPEnvelopeEnd ∧
    ((e.Flush true).2).Flush false
      = (none, { buffer := "",
                 sinkLog := e.sinkLog
                   ++ [e.buffer ++ "\n" ++ SOAPEnvelopeEnd,
                       e.buffer ++ "\n" ++ SOAPEnvelopeEnd
                         ++ "\n" ++ SOAPEnvelopeEnd] }) := by
  have h1 := Flush_fail e h
  have hb : (e.Flush true).2.buffer = e.buffer ++ "\n" ++ SOAPEnvelopeEnd := by
    rw [h1]
  have hl : (e.Flush true).2.sinkLog
      = e.sinkLog ++ [e.buffer ++ "\n" ++ SOAPEnvelopeEnd] := by
    rw [h1]
  have hne2 : (e.Flush true).2.buffer ≠ "" := by
    rw [hb]
    exact append_ne_empty_left _ _ (append_ne_empty_left _ _ h)
  refine ⟨by rw [h1], hb, ?_⟩
  rw [Flush_ok _ hne2, hb, hl]
  simp [String.append_assoc]

/-- Claim C9, witness: the statement at a concrete one-byte buffer. -/
theorem C9_witness :
    ((DefaultEncoder.mk "x" []).Flush true).1 = some "sink write failed" ∧
    ((DefaultEncoder.mk "x" []).Flush true).2.buffer
        = "x" ++ "\n" ++ SOAPEnvelopeEnd ∧
    (((DefaultEncoder.mk "x" []).Flush true).2).Flush false
      = (none, { buffer := "",
                 sinkLog := [] ++ ["x" ++ "\n" ++ SOAPEnvelopeEnd,
                       "x" ++ "\n" ++ SOAPEnvelopeEnd
                         ++ "\n" ++ SOAPEnvelopeEnd] }) :=
  C9_failed_flush_duplicates_closing (DefaultEncoder.mk "x" []) (by decide)

/-- Claim C10: any input that is not a struct after at most one pointer
dereference — an integer, a string, or a pointer to a pointer — makes the
reflective field enumeration panic (modelled as `none`) instead of
returning an error. -/
theorem C10_encode_nonstruct_panics (e : DefaultEncoder) (v : GoInput)
    (h : ∀ s : GoStruct, derefOnce v ≠ GoInput.structV s) :
    e.EncodeAny v = none := by
  unfold DefaultEncoder.EncodeAny
  cases hd : derefOnce v with
  | structV s => exact absurd hd (h s)
  | ptrV p => rfl
  | intInput i => rfl
  | strInput t => rfl

/-- Claim C10, witness: encoding the plain integer input 3 panics. -/
theorem C10_witness : NewEncoder.EncodeAny (GoInput.intInput 3) = none :=
  C10_encode_nonstruct_panics NewEncoder (GoInput.intInput 3)
    (fun _ hc => GoInput.noConfusion hc)
